import Mathlib

/-
Verification of `src/packages/aws-lambda-graphql/src/createDynamoDBEventProcessor.ts`.

The TypeScript handler is shallowly embedded as a pure Lean function over an
explicit environment `Env` holding the behaviour of the external collaborators
(the subscription registry, the execution engine, the connection-delivery
interface, `JSON.parse` and the SDK's `unmarshall`).  Effects are recorded in
an explicit trace of `Call`s; a promise rejection that escapes the handler is
the `some`-valued second component of the result, while errors swallowed by
the per-subscriber `.catch(e => console.log(e))` wrapper are recorded in the
subscriber's `caught` field.
-/

namespace LambdaGraphql

/-- A JavaScript runtime error (a thrown/rejected value). -/
structure JSErr where
  message : String
deriving DecidableEq, Repr

/-- A JavaScript value as far as this pipeline inspects it: the code only ever
asks `typeof payload === 'string'`, so values are either strings or
structurally opaque non-string values. -/
inductive JSValue
  | str (s : String)
  | obj (n : Nat)
deriving DecidableEq, Repr

/-- A DynamoDB attribute-encoded map (`record.dynamodb.NewImage`); its inner
structure is owned by the external SDK and never inspected by this code. -/
structure AttrMap where
  raw : Nat
deriving DecidableEq, Repr

/-- `ISubscriptionEvent` (from `types.ts`): the decoded change event, with the
event name and a payload that may still be a serialized string. -/
structure ISubscriptionEvent where
  event : String
  payload : JSValue
deriving DecidableEq, Repr

/-- The connection's stored `data` object; the handler reads only the
`useLegacyProtocol` flag, destructured with default `false` when absent. -/
structure ConnectionData where
  useLegacyProtocol : Option Bool
deriving DecidableEq, Repr

/-- A client connection, owned by the external connection registry. -/
structure Connection where
  id : String
  data : ConnectionData
deriving DecidableEq, Repr

/-- The subscriber's stored GraphQL operation; opaque to this handler, which
only forwards it to the execution engine. -/
structure Operation where
  raw : Nat
deriving DecidableEq, Repr

/-- A registered subscriber: a connection/operation pair with its operation id. -/
structure Subscriber where
  connection : Connection
  operation : Operation
  operationId : String
deriving DecidableEq, Repr

/-- A GraphQL `ExecutionResult` pulled from the execution iterator; opaque to
the handler, which forwards it as the message payload. -/
structure ExecutionResult where
  value : JSValue
deriving DecidableEq, Repr

/-- The message assembled at delivery time: `{ id, payload, type }`. -/
structure OutboundMessage where
  id : String
  type : String
  payload : ExecutionResult
deriving DecidableEq, Repr

/-- Modelled from the spec: `formatMessage` (from `formatMessage.ts`, not
included under `src/`) serialises an `OutboundMessage` for the wire; the spec
fixes only that the delivered message carries exactly the fields
`id`, `type`, `payload`, so serialisation is modelled as a field-preserving
wrapper. -/
structure FormattedMessage where
  message : OutboundMessage
deriving DecidableEq, Repr

/-- Modelled from the spec: the protocol vocabulary returned by `getProtocol`
(from `protocol/getProtocol.ts`, not included under `src/`): the
server-to-client message type tags, of which this handler uses the data tag. -/
structure ServerEventTypes where
  GQL_DATA : String
deriving DecidableEq, Repr

/-- Modelled from the spec: `getProtocol` (from `protocol/getProtocol.ts`, not
included under `src/`) maps the connection's legacy-protocol flag to the
protocol's vocabulary of server event types; `false` selects the current
(non-legacy) vocabulary.  The concrete tag strings are representative. -/
def getProtocol (useLegacyProtocol : Bool) : ServerEventTypes :=
  if useLegacyProtocol then { GQL_DATA := "data" } else { GQL_DATA := "next" }

/-- Modelled from the spec: `formatMessage` preserves the message's fields. -/
def formatMessage (m : OutboundMessage) : FormattedMessage :=
  { message := m }

/-- The event names a subscription operation asks the event source for:
`asyncIterator` accepts one name or an array of names. -/
inductive EventNames
  | single (n : String)
  | many (ns : List String)
deriving Repr

/-- `Array.isArray(eventNames) ? eventNames : [eventNames]` (line 33). -/
def namesOf : EventNames → List String
  | .single n => [n]
  | .many ns => ns

/-- Modelled from the spec: how one invocation of the execution engine behaves
for a given subscriber.  Either the operation fails to start (the engine
returns a non-async-iterable error value), or it subscribes to the injected
event source under some event names and derives its (possibly throwing)
stream of execution results from the source's values. -/
inductive EngineStart
  | failStart
  | subscribe (eventNames : EventNames)
      (derive : List JSValue → List (Except JSErr (Option ExecutionResult)))

/-- The value `await execute(...)` produces: a non-iterable error value, or an
async iterable whose successive `next()` calls yield the listed results
(a `.error` entry is a `next()` that rejects, `.ok none` a null value). -/
inductive EngineResult
  | nonIterable
  | stream (pulls : List (Except JSErr (Option ExecutionResult)))

/-- The behaviour of every external collaborator, fixed for one invocation:
`JSON.parse`, the SDK's `DynamoDB.Converter.unmarshall`, the subscription
manager's paginated `subscribersByEventName` (each page fetch may reject),
the execution engine's per-subscriber behaviour, and the connection manager's
`sendToConnection`. -/
structure Env where
  jsonParse : String → Except JSErr JSValue
  unmarshall : Option AttrMap → Except JSErr ISubscriptionEvent
  subscribersByEventName : String → List (Except JSErr (List Subscriber))
  engineStart : Subscriber → Except JSErr EngineStart
  sendToConnection : Connection → FormattedMessage → Except JSErr Unit

/-- The `PubSub` class (lines 25–45): wraps the decoded events (always exactly
one per subscriber invocation, line 88). -/
structure PubSub where
  events : List ISubscriptionEvent

/-- Lines 38–42: the `.map` callback, `typeof event.payload === 'string' ?
JSON.parse(event.payload) : event.payload`. -/
def decodePayload (env : Env) (p : JSValue) : Except JSErr JSValue :=
  match p with
  | .str s => env.jsonParse s
  | .obj n => .ok (.obj n)

/-- The eager, in-order `.map` over the filtered events: JavaScript's `map`
applies the callback left to right and aborts at the first throw. -/
def mapDecode (env : Env) : List ISubscriptionEvent → Except JSErr (List JSValue)
  | [] => .ok []
  | ev :: rest =>
    match decodePayload env ev.payload with
    | .error e => .error e
    | .ok v =>
      match mapDecode env rest with
      | .error e => .error e
      | .ok vs => .ok (v :: vs)

/-- `PubSub.asyncIterator` (lines 32–44): normalise the requested names,
filter the wrapped events by name, then decode each payload; the resulting
list is what `createAsyncIterator` will yield, in order, before completing. -/
def PubSub.asyncIterator (env : Env) (p : PubSub) (eventNames : EventNames) :
    Except JSErr (List JSValue) :=
  mapDecode env
    (p.events.filter fun ev => (namesOf eventNames).contains ev.event)

/-- Modelled from the spec: `execute` (from `execute.ts`, not included under
`src/`) runs the subscriber's operation in subscribe mode against the injected
`pubSub`; when the operation starts, the engine requests the source iterator
(running `PubSub.asyncIterator`, hence any `JSON.parse` failure surfaces here)
and returns the async iterable of results derived from the source's values. -/
def execute (env : Env) (sub : Subscriber) (pubSub : PubSub) :
    Except JSErr EngineResult :=
  match env.engineStart sub with
  | .error e => .error e
  | .ok .failStart => .ok .nonIterable
  | .ok (.subscribe eventNames derive) =>
    match pubSub.asyncIterator env eventNames with
    | .error e => .error e
    | .ok vals => .ok (.stream (derive vals))

/-- One observable external call made by the handler. -/
inductive Call
  | registryQuery (eventName : String)
  | pageFetch (idx : Nat)
  | executeCall (operationId : String)
  | pull (operationId : String)
  | send (connectionId : String) (msg : FormattedMessage)
deriving DecidableEq, Repr

/-- The completed outcome of one subscriber's task: the calls it made, and the
error (if any) its promise rejected with — which the `.catch(e =>
console.log(e))` wrapper on line 128 swallows, so it never propagates. -/
structure SubOutcome where
  calls : List Call
  caught : Option JSErr
deriving DecidableEq, Repr

/-- Lines 113–123: the value was non-null, so select the protocol from the
connection's `useLegacyProtocol` flag (default `false`), format the message
and call `sendToConnection`; the send attempt is traced even when it rejects. -/
def deliver (env : Env) (sub : Subscriber) (v : ExecutionResult) :
    List Call × Option JSErr :=
  let useLegacyProtocol := sub.connection.data.useLegacyProtocol.getD false
  let types := getProtocol useLegacyProtocol
  let msg := formatMessage
    { id := sub.operationId, type := types.GQL_DATA, payload := v }
  ([Call.send sub.connection.id msg],
   match env.sendToConnection sub.connection msg with
   | .ok _ => none
   | .error e => some e)

/-- Lines 111–126: the single `iterator.next()` and what follows it.  A `done`
iterator or a null value means no delivery; a rejecting `next()` rejects the
subscriber's promise. -/
def pullOnce (env : Env) (sub : Subscriber)
    (pulls : List (Except JSErr (Option ExecutionResult))) :
    List Call × Option JSErr :=
  match pulls.head? with
  | none => ([], none)
  | some (.error e) => ([], some e)
  | some (.ok none) => ([], none)
  | some (.ok (some v)) => deliver env sub v

/-- Lines 86–128: one subscriber's async task, as completed by the `.catch`
wrapper.  A fresh `PubSub` wraps the single event; `execute` is awaited; a
non-iterable result is a silent skip; otherwise exactly one value is pulled
and, when non-null, delivered. -/
def runSubscriber (env : Env) (event : ISubscriptionEvent) (sub : Subscriber) :
    SubOutcome :=
  match execute env sub { events := [event] } with
  | .error e => { calls := [.executeCall sub.operationId], caught := some e }
  | .ok .nonIterable => { calls := [.executeCall sub.operationId], caught := none }
  | .ok (.stream pulls) =>
    let t := pullOnce env sub pulls
    { calls := .executeCall sub.operationId :: .pull sub.operationId :: t.fst,
      caught := t.snd }

/-- Line 85 and 130: the page's subscribers are mapped independently to tasks
and jointly awaited; no task's outcome feeds into another's. -/
def runPage (env : Env) (event : ISubscriptionEvent)
    (subs : List Subscriber) : List SubOutcome :=
  subs.map (runSubscriber env event)

/-- The calls one page's tasks make (in the canonical linearisation: the spec
leaves within-page ordering unspecified). -/
def pageCalls (env : Env) (event : ISubscriptionEvent)
    (subs : List Subscriber) : List Call :=
  ((runPage env event subs).map SubOutcome.calls).flatten

/-- Lines 82–131: the `for await` over the registry's pages.  Each iteration
first fetches page `i` (a rejecting fetch escapes the loop — intentionally,
per the registry being an infrastructure dependency), then runs and awaits
that page's tasks before fetching page `i + 1`. -/
def runPages (env : Env) (event : ISubscriptionEvent) :
    List (Except JSErr (List Subscriber)) → Nat → List Call × Option JSErr
  | [], _ => ([], none)
  | .error e :: _, i => ([Call.pageFetch i], some e)
  | .ok subs :: rest, i =>
    let t := runPages env event rest (i + 1)
    (Call.pageFetch i :: pageCalls env event subs ++ t.fst, t.snd)

/-- A DynamoDB stream record as the handler reads it. -/
structure StreamRecord where
  NewImage : Option AttrMap
deriving DecidableEq, Repr

/-- One record of the stream batch. -/
structure DynamoDBRecord where
  eventName : String
  dynamodb : Option StreamRecord
deriving DecidableEq, Repr

/-- Line 70's field access `record.dynamodb!.NewImage`. -/
def newImageField (r : DynamoDBRecord) : Except JSErr (Option AttrMap) :=
  match r.dynamodb with
  | none => .error { message := "TypeError: cannot read NewImage of undefined" }
  | some sr => .ok sr.NewImage

/-- Lines 62–131: the body of the record loop for one record.  Non-INSERT
records are skipped (lines 64–66).  Note that neither the field access on
line 70 nor `unmarshall` is inside any try/catch: a throw there escapes. -/
def recordRun (env : Env) (r : DynamoDBRecord) : List Call × Option JSErr :=
  if r.eventName = "INSERT" then
    match newImageField r with
    | .error e => ([], some e)
    | .ok img =>
      match env.unmarshall img with
      | .error e => ([], some e)
      | .ok event =>
        let t := runPages env event (env.subscribersByEventName event.event) 0
        (Call.registryQuery event.event :: t.fst, t.snd)
  else ([], none)

/-- Lines 58–133: `processDynamoDBStreamEvents`, the async handler.  Records
are processed strictly in order; an uncaught throw aborts the loop and
rejects the handler's promise (second component `some`). -/
def processDynamoDBStreamEvents (env : Env) :
    List DynamoDBRecord → List Call × Option JSErr
  | [] => ([], none)
  | r :: rest =>
    match recordRun env r with
    | (calls, some e) => (calls, some e)
    | (calls, none) =>
      let t := processDynamoDBStreamEvents env rest
      (calls ++ t.fst, t.snd)

/-- Lines 52–134: the factory captures its options (here: the collaborator
behaviours bundled in `env`) in a closure and returns the handler; the
closure holds no mutable state of its own. -/
def createDynamoDBEventProcessor (env : Env) :
    List DynamoDBRecord → List Call × Option JSErr :=
  fun records => processDynamoDBStreamEvents env records

/-- The host invoking the returned handler once per batch; nothing is carried
from one invocation to the next. -/
def invokeSequence (env : Env) (batches : List (List DynamoDBRecord)) :
    List (List Call × Option JSErr) :=
  batches.map (createDynamoDBEventProcessor env)

/-- Number of `iterator.next()` invocations in a trace. -/
def countPulls (calls : List Call) : Nat :=
  (calls.filter fun c => match c with | .pull _ => true | _ => false).length

/-- The delivery attempts in a trace, in order. -/
def sendsOf (calls : List Call) : List (String × FormattedMessage) :=
  calls.filterMap fun c =>
    match c with
    | .send cid m => some (cid, m)
    | _ => none

/-- Fixture: a structured (non-string) payload. -/
def samplePayload : JSValue := .obj 7

/-- Fixture: a decoded subscription event. -/
def sampleEvent : ISubscriptionEvent :=
  { event := "NOTE_ADDED", payload := samplePayload }

/-- Fixture: an event whose payload is still a serialized string. -/
def strEvent : ISubscriptionEvent :=
  { event := "NOTE_ADDED", payload := .str "not valid json" }

/-- Fixture: a connection with no stored protocol flag. -/
def sampleConnection : Connection :=
  { id := "conn-1", data := { useLegacyProtocol := none } }

/-- Fixture: a subscriber on `sampleConnection`. -/
def sampleSubscriber : Subscriber :=
  { connection := sampleConnection, operation := { raw := 0 },
    operationId := "op-1" }

/-- Fixture: a second subscriber, on a legacy-protocol connection. -/
def sampleSubscriber2 : Subscriber :=
  { connection := { id := "conn-2", data := { useLegacyProtocol := some true } },
    operation := { raw := 1 }, operationId := "op-2" }

/-- Fixture: an engine whose stream echoes each source value as a result. -/
def echoDerive : List JSValue → List (Except JSErr (Option ExecutionResult)) :=
  fun vs => vs.map fun v => .ok (some { value := v })

/-- Fixture: a well-formed INSERT stream record. -/
def sampleRecord : DynamoDBRecord :=
  { eventName := "INSERT", dynamodb := some { NewImage := some { raw := 0 } } }

/-- Fixture: a MODIFY stream record. -/
def modifyRecord : DynamoDBRecord :=
  { eventName := "MODIFY", dynamodb := some { NewImage := some { raw := 0 } } }

/-- Fixture: collaborators that all succeed, with one page of one subscriber. -/
def happyEnv : Env :=
  { jsonParse := fun _ => .ok (.obj 99)
    unmarshall := fun img =>
      match img with
      | some _ => .ok sampleEvent
      | none => .error { message := "unmarshall of undefined" }
    subscribersByEventName := fun name =>
      if name = "NOTE_ADDED" then [.ok [sampleSubscriber]] else []
    engineStart := fun _ => .ok (.subscribe (.single "NOTE_ADDED") echoDerive)
    sendToConnection := fun _ _ => .ok () }

/-- Fixture: the first subscriber's `next()` rejects (an
`ExecutionValueError`) and every delivery rejects (a `DeliveryError`). -/
def faultyEnv : Env :=
  { happyEnv with
    subscribersByEventName := fun name =>
      if name = "NOTE_ADDED" then [.ok [sampleSubscriber, sampleSubscriber2]]
      else []
    engineStart := fun sub =>
      if sub.operationId = "op-1" then
        .ok (.subscribe (.single "NOTE_ADDED")
          fun _ => [.error { message := "resolver threw" }])
      else .ok (.subscribe (.single "NOTE_ADDED") echoDerive)
    sendToConnection := fun _ _ => .error { message := "connection gone" } }

/-- Fixture: the engine returns a non-async-iterable value for everyone. -/
def nonIterEnv : Env :=
  { happyEnv with engineStart := fun _ => .ok .failStart }

/-- Fixture: records decode to `strEvent` and `JSON.parse` always throws. -/
def badParseEnv : Env :=
  { happyEnv with
    jsonParse := fun _ => .error { message := "Unexpected token" }
    unmarshall := fun _ => .ok strEvent }

/-- Fixture: `unmarshall` throws on every image (a malformed `newImage`). -/
def decodeThrowEnv : Env :=
  { happyEnv with unmarshall := fun _ => .error { message := "decode failure" } }

/-- Fixture: the message `happyEnv` delivers for `sampleEvent`. -/
def sentMessage : FormattedMessage :=
  formatMessage
    { id := "op-1", type := "next", payload := { value := samplePayload } }

/-- The single `iterator.next()` step never itself emits pull markers, and it
emits either no call or exactly the one delivery attempt for the subscriber's
connection. -/
theorem pullOnce_calls (env : Env) (sub : Subscriber)
    (pulls : List (Except JSErr (Option ExecutionResult))) :
    (pullOnce env sub pulls).fst = [] ∨
    ∃ m, (pullOnce env sub pulls).fst = [Call.send sub.connection.id m] := by
  rcases h : pulls.head? with _ | (e | (_ | v))
  · exact .inl (by simp [pullOnce, h])
  · exact .inl (by simp [pullOnce, h])
  · exact .inl (by simp [pullOnce, h])
  · exact .inr ⟨formatMessage
      { id := sub.operationId,
        type := (getProtocol
          (sub.connection.data.useLegacyProtocol.getD false)).GQL_DATA,
        payload := v }, by simp [pullOnce, h, deliver]⟩

/-- C4: a change record whose `eventName` is not INSERT is skipped: its run
makes no registry query, no execute, no pull and no delivery call (its trace
is empty) and does not reject, and processing a batch starting with it is
exactly processing the remaining records. -/
theorem non_insert_record_is_skipped (env : Env) (r : DynamoDBRecord)
    (h : r.eventName ≠ "INSERT") :
    recordRun env r = ([], none) ∧
    ∀ rest, processDynamoDBStreamEvents env (r :: rest) =
      processDynamoDBStreamEvents env rest := by
  have h1 : recordRun env r = ([], none) := by simp [recordRun, h]
  exact ⟨h1, fun rest => by simp [processDynamoDBStreamEvents, h1]⟩

/-- C4 witness: a MODIFY record under the all-succeeding environment. -/
theorem non_insert_record_is_skipped_witness :
    recordRun happyEnv modifyRecord = ([], none) ∧
    ∀ rest, processDynamoDBStreamEvents happyEnv (modifyRecord :: rest) =
      processDynamoDBStreamEvents happyEnv rest :=
  non_insert_record_is_skipped happyEnv modifyRecord (by decide)

/-- C5: for every subscriber and event, `iterator.next()` is invoked at most
once — and exactly once whenever `execute` returned an async iterable — and
at most one message is ever sent to the subscriber. -/
theorem single_pull_single_message (env : Env) (event : ISubscriptionEvent)
    (sub : Subscriber) :
    countPulls (runSubscriber env event sub).calls ≤ 1 ∧
    (sendsOf (runSubscriber env event sub).calls).length ≤ 1 ∧
    ∀ pulls, execute env sub { events := [event] } = .ok (.stream pulls) →
      countPulls (runSubscriber env event sub).calls = 1 := by
  rcases hexec : execute env sub { events := [event] } with e | res
  · simp [runSubscriber, hexec, countPulls, sendsOf]
  · cases res with
    | nonIterable => simp [runSubscriber, hexec, countPulls, sendsOf]
    | stream pulls =>
      rcases pullOnce_calls env sub pulls with h | ⟨m, h⟩ <;>
        simp [runSubscriber, hexec, countPulls, sendsOf, h]

/-- C5 witness: the all-succeeding environment performs exactly one pull. -/
theorem single_pull_single_message_witness :
    countPulls (runSubscriber happyEnv sampleEvent sampleSubscriber).calls = 1 :=
  (single_pull_single_message happyEnv sampleEvent sampleSubscriber).2.2
    [.ok (some { value := samplePayload })] rfl

/-- C2: per-subscriber failure isolation: a page's outcomes decompose
pointwise, so every other subscriber's outcome (and delivery) is exactly what
it is with the distinguished subscriber absent; a non-async-iterable
`execute` result is a silent skip — execute called, no pull, no delivery, no
error; and the page loop's continuation on the remaining pages (including
whether it rejects) never depends on the current page's subscribers. -/
theorem subscriber_failure_isolation (env : Env) (event : ISubscriptionEvent)
    (l₁ l₂ : List Subscriber) (s : Subscriber) :
    runPage env event (l₁ ++ s :: l₂) =
      runPage env event l₁ ++ runSubscriber env event s :: runPage env event l₂ ∧
    (execute env s { events := [event] } = .ok .nonIterable →
      runSubscriber env event s =
        { calls := [.executeCall s.operationId], caught := none }) ∧
    ∀ subs rest i, runPages env event (.ok subs :: rest) i =
      (Call.pageFetch i :: pageCalls env event subs ++
        (runPages env event rest (i + 1)).fst,
       (runPages env event rest (i + 1)).snd) := by
  refine ⟨by simp [runPage], fun hex => by simp [runSubscriber, hex],
    fun subs rest i => rfl⟩

/-- C2 witness: a subscriber whose operation fails to start is a silent
skip. -/
theorem subscriber_failure_isolation_witness :
    runSubscriber nonIterEnv sampleEvent sampleSubscriber =
      { calls := [.executeCall sampleSubscriber.operationId], caught := none } :=
  (subscriber_failure_isolation nonIterEnv sampleEvent [] [] sampleSubscriber).2.1
    rfl

/-- The eager decode map is length-preserving whenever it succeeds. -/
theorem mapDecode_length (env : Env) :
    ∀ (l : List ISubscriptionEvent) (vs : List JSValue),
      mapDecode env l = .ok vs → vs.length = l.length := by
  intro l
  induction l with
  | nil =>
    intro vs h
    simp only [mapDecode] at h
    cases h
    rfl
  | cons ev rest ih =>
    intro vs h
    simp only [mapDecode] at h
    rcases hd : decodePayload env ev.payload with e | v <;> simp only [hd] at h
    · cases h
    · rcases hr : mapDecode env rest with e | ws <;> simp only [hr] at h
      · cases h
      · cases h
        simp [ih ws hr]

/-- C7: a `PubSub` wrapping exactly one event yields, for any requested
name(s): the event's payload (JSON-parsed when it is a string, unchanged
otherwise) when the event's name is among the requested names, nothing when
it is not, and in every case a sequence of at most one element. -/
theorem single_event_source_behaviour (env : Env) (e : ISubscriptionEvent)
    (names : EventNames) :
    (e.event ∈ namesOf names →
      (∀ s, e.payload = .str s →
        PubSub.asyncIterator env { events := [e] } names =
          (env.jsonParse s).map fun v => [v]) ∧
      ∀ n, e.payload = .obj n →
        PubSub.asyncIterator env { events := [e] } names = .ok [.obj n]) ∧
    (e.event ∉ namesOf names →
      PubSub.asyncIterator env { events := [e] } names = .ok []) ∧
    ∀ vs, PubSub.asyncIterator env { events := [e] } names = .ok vs →
      vs.length ≤ 1 := by
  refine ⟨fun hm => ⟨fun s hs => ?_, fun n hn => ?_⟩,
    fun hm => ?_, fun vs hvs => ?_⟩
  · cases hp : env.jsonParse s <;>
      simp [PubSub.asyncIterator, hm, mapDecode, decodePayload, hs, hp,
        Except.map]
  · simp [PubSub.asyncIterator, hm, mapDecode, decodePayload, hn]
  · simp [PubSub.asyncIterator, hm, mapDecode]
  · have hlen := mapDecode_length env _ vs hvs
    calc vs.length
        = (([e].filter fun ev => (namesOf names).contains ev.event)).length :=
          hlen
      _ ≤ [e].length := List.length_filter_le _ _
      _ = 1 := rfl

/-- C7 witness: the matching name yields exactly the wrapped payload. -/
theorem single_event_source_behaviour_witness :
    PubSub.asyncIterator happyEnv { events := [sampleEvent] }
      (.single "NOTE_ADDED") = .ok [samplePayload] :=
  ((single_event_source_behaviour happyEnv sampleEvent
    (.single "NOTE_ADDED")).1 (by decide)).2 7 rfl

/-- The page loop only rejects through a rejecting page fetch: when every
page fetch succeeds, subscriber errors (all caught) never reject it. -/
theorem runPages_snd_none_of_ok (env : Env) (event : ISubscriptionEvent) :
    ∀ (steps : List (Except JSErr (List Subscriber))) (i : Nat),
      (∀ step ∈ steps, ∃ subs, step = .ok subs) →
      (runPages env event steps i).snd = none := by
  intro steps
  induction steps with
  | nil => intro i _; rfl
  | cons step rest ih =>
    intro i h
    obtain ⟨subs, hs⟩ := h step (by simp)
    subst hs
    simp only [runPages]
    exact ih (i + 1) fun st hst => h st (by simp [hst])

/-- A record whose decode path and page fetches succeed never rejects the
handler, whatever the subscribers' executions and deliveries do. -/
theorem recordRun_snd_none (env : Env) (r : DynamoDBRecord)
    (h : r.eventName = "INSERT" →
      ∃ img ev, newImageField r = .ok img ∧ env.unmarshall img = .ok ev ∧
        ∀ step ∈ env.subscribersByEventName ev.event, ∃ subs, step = .ok subs) :
    (recordRun env r).snd = none := by
  by_cases hi : r.eventName = "INSERT"
  · obtain ⟨img, ev, h1, h2, h3⟩ := h hi
    simp only [recordRun, hi, if_true, h1, h2]
    exact runPages_snd_none_of_ok env ev _ 0 h3
  · simp [recordRun, hi]

/-- A batch of records none of which rejects resolves the handler. -/
theorem process_snd_none_of (env : Env) :
    ∀ records : List DynamoDBRecord,
      (∀ r ∈ records, (recordRun env r).snd = none) →
      (processDynamoDBStreamEvents env records).snd = none := by
  intro records
  induction records with
  | nil => intro _; rfl
  | cons r rest ih =>
    intro h
    have hr := h r (by simp)
    rcases hc : recordRun env r with ⟨calls, err⟩
    rw [hc] at hr
    simp only at hr
    subst hr
    simp only [processDynamoDBStreamEvents, hc]
    exact ih fun x hx => h x (by simp [hx])

/-- C1: for every batch in which each INSERT record decodes successfully and
every page fetch succeeds, the handler resolves successfully — whatever the
executions, value pulls and deliveries do, including raising
`ExecutionValueError` (a rejecting `iterator.next()`) or `DeliveryError`
(a rejecting `sendToConnection`): no per-subscriber error escapes to the
host. -/
theorem handler_resolves_despite_subscriber_errors (env : Env)
    (records : List DynamoDBRecord)
    (h : ∀ r ∈ records, r.eventName = "INSERT" →
      ∃ img ev, newImageField r = .ok img ∧ env.unmarshall img = .ok ev ∧
        ∀ step ∈ env.subscribersByEventName ev.event, ∃ subs, step = .ok subs) :
    (processDynamoDBStreamEvents env records).snd = none :=
  process_snd_none_of env records fun r hr => recordRun_snd_none env r (h r hr)

/-- C1 witness: one subscriber's `next()` rejects and the other's delivery
rejects, yet the handler resolves. -/
theorem handler_resolves_despite_subscriber_errors_witness :
    (processDynamoDBStreamEvents faultyEnv [sampleRecord]).snd = none :=
  handler_resolves_despite_subscriber_errors faultyEnv [sampleRecord] (by
    intro r hr _
    rw [List.mem_singleton] at hr
    subst hr
    refine ⟨some { raw := 0 }, sampleEvent, rfl, rfl, ?_⟩
    intro step hstep
    simp [faultyEnv, happyEnv, sampleEvent] at hstep
    exact ⟨_, hstep⟩)

/-- C6: every delivery attempt a subscriber's task makes goes to that
subscriber's connection and carries `id` equal to the subscriber's
`operationId`, `type` equal to the data tag of the protocol selected by the
connection's `useLegacyProtocol` flag (an absent flag selecting the
non-legacy vocabulary), and `payload` equal to the single value pulled from
the execution stream. -/
theorem delivered_message_shape (env : Env) (event : ISubscriptionEvent)
    (sub : Subscriber) (cid : String) (m : FormattedMessage)
    (h : Call.send cid m ∈ (runSubscriber env event sub).calls) :
    cid = sub.connection.id ∧
    m.message.id = sub.operationId ∧
    m.message.type =
      (getProtocol (sub.connection.data.useLegacyProtocol.getD false)).GQL_DATA ∧
    (sub.connection.data.useLegacyProtocol = none →
      m.message.type = (getProtocol false).GQL_DATA) ∧
    ∃ pulls, execute env sub { events := [event] } = .ok (.stream pulls) ∧
      pulls.head? = some (.ok (some m.message.payload)) := by
  rcases hexec : execute env sub { events := [event] } with e | res
  · simp [runSubscriber, hexec] at h
  · cases res with
    | nonIterable => simp [runSubscriber, hexec] at h
    | stream pulls =>
      rcases hh : pulls.head? with _ | (e | (_ | v))
      · simp [runSubscriber, hexec, pullOnce, hh] at h
      · simp [runSubscriber, hexec, pullOnce, hh] at h
      · simp [runSubscriber, hexec, pullOnce, hh] at h
      · simp [runSubscriber, hexec, pullOnce, hh, deliver, formatMessage] at h
        obtain ⟨hcid, hm⟩ := h
        subst hcid
        subst hm
        refine ⟨rfl, rfl, rfl, fun hnone => by simp [hnone], pulls, rfl, ?_⟩
        simpa using hh

/-- C6 witness: the message delivered by the all-succeeding environment. -/
theorem delivered_message_shape_witness :
    "conn-1" = sampleSubscriber.connection.id ∧
    sentMessage.message.id = sampleSubscriber.operationId ∧
    sentMessage.message.type =
      (getProtocol
        (sampleSubscriber.connection.data.useLegacyProtocol.getD false)).GQL_DATA ∧
    (sampleSubscriber.connection.data.useLegacyProtocol = none →
      sentMessage.message.type = (getProtocol false).GQL_DATA) ∧
    ∃ pulls, execute happyEnv sampleSubscriber { events := [sampleEvent] } =
        .ok (.stream pulls) ∧
      pulls.head? = some (.ok (some sentMessage.message.payload)) :=
  delivered_message_shape happyEnv sampleEvent sampleSubscriber "conn-1"
    sentMessage (by decide)

/-- C10: when the decoded event's payload is a string that fails to
JSON-parse, the failure surfaces inside each subscriber's task at the
iterator request made during `execute`: every subscriber whose operation
subscribes to the event's name completes as a caught (logged) no-op —
execute called, no pull, no delivery, the parse error caught — and any batch
whose records decode successfully (to such events or otherwise) with
succeeding page fetches still resolves. -/
theorem payload_parse_failure_is_per_subscriber (env : Env)
    (event : ISubscriptionEvent) (s : String) (pe : JSErr)
    (hp : event.payload = .str s) (hj : env.jsonParse s = .error pe) :
    (∀ sub eventNames derive,
      env.engineStart sub = .ok (.subscribe eventNames derive) →
      event.event ∈ namesOf eventNames →
      runSubscriber env event sub =
        { calls := [.executeCall sub.operationId], caught := some pe }) ∧
    ∀ records : List DynamoDBRecord,
      (∀ r ∈ records, r.eventName = "INSERT" →
        ∃ img ev, newImageField r = .ok img ∧ env.unmarshall img = .ok ev ∧
          ∀ step ∈ env.subscribersByEventName ev.event, ∃ subs, step = .ok subs) →
      (processDynamoDBStreamEvents env records).snd = none := by
  constructor
  · intro sub eventNames derive hstart hmem
    have hexec : execute env sub { events := [event] } = .error pe := by
      simp [execute, hstart, PubSub.asyncIterator, hmem, mapDecode,
        decodePayload, hp, hj]
    simp [runSubscriber, hexec]
  · intro records h
    exact process_snd_none_of env records fun r hr => recordRun_snd_none env r (h r hr)

/-- C10 witness: a non-parsing string payload ends the subscriber as a caught
no-op. -/
theorem payload_parse_failure_is_per_subscriber_witness :
    runSubscriber badParseEnv strEvent sampleSubscriber =
      { calls := [.executeCall sampleSubscriber.operationId],
        caught := some { message := "Unexpected token" } } :=
  (payload_parse_failure_is_per_subscriber badParseEnv strEvent "not valid json"
    { message := "Unexpected token" } rfl rfl).1
    sampleSubscriber (.single "NOTE_ADDED") echoDerive rfl (by decide)

/-- C3 fails on the code: nothing catches a throw from the decode of
`newImage` (lines 69–71 sit in no try/catch), so a record whose decoding
throws is not skipped — the error escapes, the handler's promise rejects
(triggering host-level batch redelivery, exactly what the comment on lines
80–81 says must not happen), and the following record is never processed:
on this two-record batch the handler performs no calls at all and rejects
with the decode error. -/
theorem decode_throw_rejects_handler :
    processDynamoDBStreamEvents decodeThrowEnv [sampleRecord, sampleRecord] =
      ([], some { message := "decode failure" }) := rfl

/-- The page loop's trace, when every fetch succeeds, is exactly the page
segments in order: the fetch of page `i + k` followed by all of that page's
subscriber calls. -/
theorem runPages_ok_decomposition (env : Env) (event : ISubscriptionEvent) :
    ∀ (pages : List (List Subscriber)) (i : Nat),
      ∃ segs : List (List Call),
        runPages env event (pages.map Except.ok) i = (segs.flatten, none) ∧
        segs.length = pages.length ∧
        ∀ k (hk : k < segs.length) (hk' : k < pages.length),
          segs.get ⟨k, hk⟩ =
            Call.pageFetch (i + k) ::
              pageCalls env event (pages.get ⟨k, hk'⟩) := by
  intro pages
  induction pages with
  | nil =>
    intro i
    exact ⟨[], rfl, rfl, fun k hk _ => absurd hk (by simp)⟩
  | cons subs rest ih =>
    intro i
    obtain ⟨segs, h1, h2, h3⟩ := ih (i + 1)
    refine ⟨(Call.pageFetch i :: pageCalls env event subs) :: segs, ?_,
      by simp [h2], ?_⟩
    · simp [runPages, h1]
    · intro k hk hk'
      cases k with
      | zero => simp
      | succ k =>
        have e1 : i + 1 + k = i + (k + 1) := by omega
        simpa [e1] using h3 k (by simpa using hk) (by simpa using hk')

/-- The handler's trace, when no record rejects, is exactly the records'
traces concatenated in host order. -/
theorem process_decomposition (env : Env) :
    ∀ records : List DynamoDBRecord,
      (∀ r ∈ records, (recordRun env r).snd = none) →
      ∃ segs : List (List Call),
        processDynamoDBStreamEvents env records = (segs.flatten, none) ∧
        segs.length = records.length ∧
        ∀ k (hk : k < segs.length) (hk' : k < records.length),
          segs.get ⟨k, hk⟩ = (recordRun env (records.get ⟨k, hk'⟩)).fst := by
  intro records
  induction records with
  | nil =>
    intro _
    exact ⟨[], rfl, rfl, fun k hk _ => absurd hk (by simp)⟩
  | cons r rest ih =>
    intro h
    obtain ⟨segs, h1, h2, h3⟩ := ih fun x hx => h x (by simp [hx])
    have hr := h r (by simp)
    rcases hc : recordRun env r with ⟨calls, err⟩
    rw [hc] at hr
    simp only at hr
    subst hr
    refine ⟨calls :: segs, ?_, by simp [h2], ?_⟩
    · simp [processDynamoDBStreamEvents, hc, h1]
    · intro k hk hk'
      cases k with
      | zero => simp [hc]
      | succ k => simpa using h3 k (by simpa using hk) (by simpa using hk')

/-- C8: processing is strictly sequential.  When no record rejects, the
handler's trace is exactly the per-record traces concatenated in the order
the host delivered the records — each record's dispatch runs to completion
before the next record's calls appear — and for any event the page loop's
trace is exactly the page segments in order, each consisting of the fetch of
page `k` followed by all of page `k`'s subscriber calls, so page `k + 1` is
never fetched before every task of page `k` (caught failures included) has
completed. -/
theorem sequential_records_and_pages (env : Env)
    (records : List DynamoDBRecord)
    (h : ∀ r ∈ records, (recordRun env r).snd = none) :
    (∃ segs : List (List Call),
      processDynamoDBStreamEvents env records = (segs.flatten, none) ∧
      segs.length = records.length ∧
      ∀ k (hk : k < segs.length) (hk' : k < records.length),
        segs.get ⟨k, hk⟩ = (recordRun env (records.get ⟨k, hk'⟩)).fst) ∧
    ∀ (event : ISubscriptionEvent) (pages : List (List Subscriber)),
      ∃ segs : List (List Call),
        runPages env event (pages.map Except.ok) 0 = (segs.flatten, none) ∧
        segs.length = pages.length ∧
        ∀ k (hk : k < segs.length) (hk' : k < pages.length),
          segs.get ⟨k, hk⟩ =
            Call.pageFetch k :: pageCalls env event (pages.get ⟨k, hk'⟩) := by
  refine ⟨process_decomposition env records h, fun event pages => ?_⟩
  obtain ⟨segs, h1, h2, h3⟩ := runPages_ok_decomposition env event pages 0
  exact ⟨segs, h1, h2, fun k hk hk' => by simpa using h3 k hk hk'⟩

/-- C8 witness: the all-succeeding environment on a one-record batch. -/
theorem sequential_records_and_pages_witness :
    (∃ segs : List (List Call),
      processDynamoDBStreamEvents happyEnv [sampleRecord] =
        (segs.flatten, none) ∧
      segs.length = [sampleRecord].length ∧
      ∀ k (hk : k < segs.length) (hk' : k < [sampleRecord].length),
        segs.get ⟨k, hk⟩ =
          (recordRun happyEnv ([sampleRecord].get ⟨k, hk'⟩)).fst) ∧
    ∀ (event : ISubscriptionEvent) (pages : List (List Subscriber)),
      ∃ segs : List (List Call),
        runPages happyEnv event (pages.map Except.ok) 0 = (segs.flatten, none) ∧
        segs.length = pages.length ∧
        ∀ k (hk : k < segs.length) (hk' : k < pages.length),
          segs.get ⟨k, hk⟩ =
            Call.pageFetch k :: pageCalls happyEnv event (pages.get ⟨k, hk'⟩) :=
  sequential_records_and_pages happyEnv [sampleRecord] (by
    intro r hr
    rw [List.mem_singleton] at hr
    subst hr
    rfl)

/-- C9: the processor the factory returns is stateless and deterministic: in
any sequence of host invocations against the same collaborators, two
invocations handed identical batches perform identical call sequences —
identical deliveries included — and identical outcomes; nothing carries over
between invocations and nothing is deduplicated. -/
theorem reprocessing_is_deterministic (env : Env)
    (batches : List (List DynamoDBRecord)) (i j : Nat)
    (h : batches[i]? = batches[j]?) :
    (invokeSequence env batches)[i]? = (invokeSequence env batches)[j]? := by
  simp [invokeSequence, List.getElem?_map, h]

/-- C9 witness: redelivering the same batch performs the same calls again. -/
theorem reprocessing_is_deterministic_witness :
    (invokeSequence happyEnv [[sampleRecord], [sampleRecord]])[0]? =
      (invokeSequence happyEnv [[sampleRecord], [sampleRecord]])[1]? :=
  reprocessing_is_deterministic happyEnv [[sampleRecord], [sampleRecord]] 0 1
    rfl

end LambdaGraphql
